import Mathlib

/-!
# Stream-line generation and flow animation of `ProjectedStreamLines`

A shallow embedding of `src/improved_vector_field.py` (class
`ProjectedStreamLines`): the integrator that turns a vector field into
downsampled polylines (`build`, from `__init__`, lines 116-233), and the
flow-animation state machine (`start_animation`, the per-frame `updater`,
`end_animation`, lines 291-453).

Conventions of the embedding:
* machine floats become exact rationals (`ℚ`);
* `numpy` arrays of length 3 become the `Vec3` structure;
* the global numpy pseudo-random generator is modelled as a deterministic
  function of its seed and of the draw index (`npRandomTriple`), which is
  the only property of it the code relies on; `np.random.seed(0)` replaces
  the incoming global state by the stream for seed `0`;
* the unseeded Python `random.random()` stream used by `start_animation`
  is passed in as an explicit function `rand : ℕ → ℚ`;
* Python attributes that may not exist yet are modelled with `Option`
  (`flowAnimation : Option (Option Unit)`: `none` = the attribute
  `flow_animation` was never created, `some none` = it holds `None`,
  `some (some u)` = an updater is active); accessing a missing attribute
  raises `PyError.attributeError`, `raise ValueError` in `end_animation`
  becomes `PyError.valueError`;
* rendering-only behaviour (stroke/color/gradient, `set_points_smoothly`,
  the animation objects' interpolation) is outside the embedding; a built
  line keeps exactly the data the animator consumes: its `duration`
  metadata and its downsampled, projected point list.
-/

/-- A numpy 3-vector over exact rationals. -/
structure Vec3 where
  x : ℚ
  y : ℚ
  z : ℚ
deriving DecidableEq, Repr

/-- A user-supplied axis range: either `[min, max]` or `[min, max, step]`
(lines 100-102 of the source accept both shapes). -/
inductive RangeSpec
  | pair (lo hi : ℚ)
  | triple (lo hi st : ℚ)
deriving DecidableEq, Repr

/-- Range normalization, lines 132-135: a 2-element range first gets the
default step `0.5` appended, then the upper bound is expanded in place by
the step (`self.ranges[i][1] += self.ranges[i][2]`).  The result is the
normalized triple `(min, max + step, step)`. -/
def normalizeRange : RangeSpec → ℚ × ℚ × ℚ
  | .pair lo hi => (lo, hi + 1/2, 1/2)
  | .triple lo hi st => (lo, hi + st, st)

/-- Assembly of `self.ranges`, lines 124-137: x and y are taken as given;
the z entry is `z_range or y_range.copy()` when `three_dimensions or
z_range` holds and the 2-element list `[0, 0]` otherwise; then every entry
is normalized. -/
def assembleRanges (x_range y_range : RangeSpec) (z_range : Option RangeSpec)
    (threeD : Bool) : (ℚ × ℚ × ℚ) × (ℚ × ℚ × ℚ) × (ℚ × ℚ × ℚ) :=
  let zspec : RangeSpec :=
    if threeD || z_range.isSome then z_range.getD y_range else .pair 0 0
  (normalizeRange x_range, normalizeRange y_range, normalizeRange zspec)

/-- `np.arange(lo, hi, st)` for a positive step over exact rationals:
the values `lo + k * st` for `0 ≤ k < ⌈(hi - lo) / st⌉` (all uses in the
source have a positive step after normalization). -/
def arangeQ : ℚ × ℚ × ℚ → List ℚ
  | (lo, hi, st) =>
    if st ≤ 0 then []
    else (List.range (⌈(hi - lo) / st⌉.toNat)).map (fun k => lo + (k : ℚ) * st)

/-- The nested comprehension order of lines 160-171: repeats outermost,
then x, then y, then z innermost; one grid cell per combination. -/
def gridPoints (n_repeats : ℕ) (xr yr zr : ℚ × ℚ × ℚ) : List (ℚ × ℚ × ℚ) :=
  (List.range n_repeats).flatMap fun _ =>
    (arangeQ xr).flatMap fun x =>
      (arangeQ yr).flatMap fun y =>
        (arangeQ zr).map fun z => (x, y, z)

/-- Model of the numpy global pseudo-random generator: a deterministic
word stream determined by the seed and the draw index (a linear
congruential generator standing in for numpy's generator; the code relies
only on the stream being a fixed function of the seed). -/
def npRandomWord (seed : ℕ) : ℕ → ℕ
  | 0 => (seed + 1013904223) % 4294967296
  | k + 1 => (npRandomWord seed k * 1664525 + 1013904223) % 4294967296

/-- One modelled draw of numpy's `random()`: a rational in `[0, 1)`. -/
def npRandomUnit (seed k : ℕ) : ℚ := (npRandomWord seed k : ℚ) / 4294967296

/-- The `k`-th modelled draw of `np.random.random(3)` (line 165). -/
def npRandomTriple (seed : ℕ) (k : ℕ) : Vec3 :=
  ⟨npRandomUnit seed (3 * k), npRandomUnit seed (3 * k + 1),
    npRandomUnit seed (3 * k + 2)⟩

/-- Seed positions, lines 158-171: the `k`-th grid cell `(x, y, z)` is
offset by `-noise_factor / 2` on every axis and jittered by
`noise_factor * np.random.random(3)`. -/
def seedsOf (noise_factor : ℚ) (jit : ℕ → Vec3) (grid : List (ℚ × ℚ × ℚ)) :
    List Vec3 :=
  grid.enum.map fun ke =>
    ⟨ke.2.1 - noise_factor / 2 + noise_factor * (jit ke.1).x,
     ke.2.2.1 - noise_factor / 2 + noise_factor * (jit ke.1).y,
     ke.2.2.2 - noise_factor / 2 + noise_factor * (jit ke.1).z⟩

/-- The truncation predicate of lines 173-181, evaluated against the
already-normalized `self.x_range` / `self.y_range` / `self.z_range`
triples: on each axis the point is outside when it is below
`range[0] - padding` or above `range[1] + padding - range[2]`. -/
def outside_box (xr yr zr : ℚ × ℚ × ℚ) (padding : ℚ) (p : Vec3) : Bool :=
  p.x < xr.1 - padding || p.x > xr.2.1 + padding - xr.2.2 ||
  p.y < yr.1 - padding || p.y > yr.2.1 + padding - yr.2.2 ||
  p.z < zr.1 - padding || p.z > zr.2.1 + padding - zr.2.2

/-- One forward Euler step, line 196: `last_point + dt * func(last_point)`. -/
def euler (func : Vec3 → Vec3) (dt : ℚ) (p : Vec3) : Vec3 :=
  ⟨p.x + dt * (func p).x, p.y + dt * (func p).y, p.z + dt * (func p).z⟩

/-- The integration loop of lines 193-199 with `n` remaining iterations:
extend from the last stored point, stop (without storing) at the first
point for which `ob` holds, otherwise store and continue. -/
def trajPoints (func : Vec3 → Vec3) (ob : Vec3 → Bool) (dt : ℚ) :
    ℕ → Vec3 → List Vec3
  | 0, p => [p]
  | n + 1, p =>
    if ob (euler func dt p) then [p]
    else p :: trajPoints func ob dt n (euler func dt p)

/-- `l[::s]` for a stride `s ≥ 1`: `everyNthAux s l k` keeps an element
when the skip counter `k` is `0` (resetting it to `s - 1`) and skips it
otherwise. -/
def everyNthAux (s : ℕ) : List Vec3 → ℕ → List Vec3
  | [], _ => []
  | a :: l, 0 => a :: everyNthAux s l (s - 1)
  | _ :: l, k + 1 => everyNthAux s l k

/-- Python slicing `points[::s]` (line 206). -/
def everyNth (s : ℕ) (l : List Vec3) : List Vec3 := everyNthAux s l 0

/-- `max_steps = ceil(virtual_time / dt) + 1`, line 183. -/
def maxSteps (virtual_time dt : ℚ) : ℤ := ⌈virtual_time / dt⌉ + 1

/-- The data of one produced stream line that the animator consumes: the
`duration` metadata attached at line 204 and the downsampled, projected
point list of line 206. -/
structure StreamLine where
  duration : ℚ
  points : List Vec3
deriving DecidableEq, Repr

/-- Lines 200-207 for one trajectory: `step = max_steps`; the line is
skipped only when `step` is `0` (`if not step: continue`); `duration =
step * dt`; the trajectory is downsampled with stride
`max(1, int(len(points) / max_anchors_per_line))` and then projected
point by point. -/
def buildLine (proj : Vec3 → Vec3) (max_anchors : ℕ) (ms : ℤ) (dt : ℚ)
    (pts : List Vec3) : Option StreamLine :=
  if ms = 0 then none
  else
    some ⟨(ms : ℚ) * dt,
      (everyNth (max 1 (pts.length / max_anchors)) pts).map proj⟩

/-- The whole integrator, `ProjectedStreamLines.__init__` lines 116-233:
normalize the ranges, reseed the global generator (`np.random.seed(0)`,
line 159 — the incoming global state `_g` is discarded), spawn the jittered
seed grid, integrate every seed until `outside_box` or the step budget is
exhausted, and turn each trajectory into a `StreamLine`.  When
`noise_factor` is not supplied it defaults to `self.y_range[2] / 2`
(lines 149-151, the normalized step). -/
def build (_g : ℕ) (func : Vec3 → Vec3) (proj : Vec3 → Vec3)
    (x_range y_range : RangeSpec) (z_range : Option RangeSpec) (threeD : Bool)
    (noise_factor : Option ℚ) (n_repeats : ℕ) (dt virtual_time : ℚ)
    (max_anchors : ℕ) (padding : ℚ) : List StreamLine :=
  let r := assembleRanges x_range y_range z_range threeD
  let nf := noise_factor.getD (r.2.1.2.2 / 2)
  let seeds := seedsOf nf (npRandomTriple 0) (gridPoints n_repeats r.1 r.2.1 r.2.2)
  let ob := outside_box r.1 r.2.1 r.2.2 padding
  let ms := maxSteps virtual_time dt
  seeds.filterMap fun s =>
    buildLine proj max_anchors ms dt (trajPoints func ob dt ms.toNat s)

/-! ## Flow animator (`start_animation` / `updater` / `end_animation`) -/

/-- The per-line state the animator attaches to a stream line: the
`duration` metadata from the integrator and the virtual-time offset
`time` (the phase) that `start_animation` assigns and the per-frame
updater advances. -/
structure LineState where
  duration : ℚ
  time : ℚ
deriving DecidableEq, Repr

/-- The container of the stream lines (the `ProjectedStreamLines` mobject)
as the animator sees it.  `flowAnimation : Option (Option Unit)` models the
Python attribute `self.flow_animation`: `none` means the attribute was
never created, `some none` that it holds `None`, `some (some u)` that an
updater is registered.  `flowSpeed` and `timeWidth` model the attributes
assigned at lines 356-357 (they are only meaningful once `start_animation`
has run, which is the only way to make `flowAnimation = some (some u)`). -/
structure SLContainer where
  virtualTime : ℚ
  flowSpeed : ℚ
  timeWidth : ℚ
  streamLines : List LineState
  updaterRegistered : Bool
  flowAnimation : Option (Option Unit)
deriving DecidableEq, Repr

/-- The container as it leaves `__init__`: the stream lines are built, no
updater is registered, and none of the animation attributes
(`flow_animation`, `flow_speed`, `time_width`, per-line `time`) exist yet.
Only `flowAnimation` records true attribute absence (`none`), because it is
the first of them `end_animation` reads (line 392); the others carry
placeholder values that no reachable read sees before `start_animation`
overwrites them. -/
def mkContainer (vt : ℚ) (lines : List StreamLine) : SLContainer :=
  { virtualTime := vt
    flowSpeed := 1
    timeWidth := 3/10
    streamLines := lines.map fun l => { duration := l.duration, time := 0 }
    updaterRegistered := false
    flowAnimation := none }

/-- `start_animation`, lines 291-357, restricted to the state the claims
read: every line gets `time = random.random() * virtual_time`, negated
when `warm_up` holds (lines 342-344); the unseeded Python generator is the
explicit stream `rand`; the per-frame updater is registered (line 354) and
recorded in `flow_animation` (line 355); `flow_speed` and `time_width` are
stored (lines 356-357). -/
def start_animation (c : SLContainer) (warmUp : Bool) (flowSpeed timeWidth : ℚ)
    (rand : ℕ → ℚ) : SLContainer :=
  { c with
    streamLines := c.streamLines.enum.map fun kl =>
      { kl.2 with time :=
          if warmUp then -(rand kl.1 * c.virtualTime) else rand kl.1 * c.virtualTime }
    updaterRegistered := true
    flowAnimation := some (some ())
    flowSpeed := flowSpeed
    timeWidth := timeWidth }

/-- One per-frame update of a single line's phase, lines 349-351:
`line.time += dt * flow_speed`, then a single conditional wrap
`line.time -= virtual_time` when `line.time >= virtual_time`. -/
def updaterStep (virtualTime flowSpeed : ℚ) (phase dt : ℚ) : ℚ :=
  if virtualTime ≤ phase + dt * flowSpeed then phase + dt * flowSpeed - virtualTime
  else phase + dt * flowSpeed

/-- A line's phase after a finite sequence of per-frame updates with the
given frame deltas. -/
def updaterRun (virtualTime flowSpeed : ℚ) (phase : ℚ) (dts : List ℚ) : ℚ :=
  dts.foldl (updaterStep virtualTime flowSpeed) phase

/-- The two possible per-line wind-down sequences `end_animation` builds
(lines 422-452): a hold-invisible-then-reveal `Succession` for a line
whose phase is still non-positive, and a finish-the-current-cycle
`Succession` for a line already flowing.  Each remembers its first
sequence member's run time and the `Create` run time. -/
inductive EndAnim
  | holdThenReveal (holdRunTime createRunTime : ℚ)
  | finishThenReveal (remainingTime createRunTime : ℚ)
deriving DecidableEq, Repr

/-- Whether a wind-down sequence is of the hold-invisible-then-reveal
kind. -/
def EndAnim.isHold : EndAnim → Bool
  | .holdThenReveal _ _ => true
  | .finishThenReveal _ _ => false

/-- The two ways `end_animation` can fail: Python's `AttributeError` when
`self.flow_animation` was never created, and the `raise ValueError(...)`
of line 393 (the spec's InvalidStateError). -/
inductive PyError
  | attributeError
  | valueError
deriving DecidableEq, Repr

/-- `creation_run_time` of lines 408-413:
`max_run_time / (1 + time_width) * (creation_rate_func(0.001) * 1000)`,
with the external easing `ease_out_sine` passed in as `rateFunc`. -/
def creationRunTime (rateFunc : ℚ → ℚ) (c : SLContainer) : ℚ :=
  c.virtualTime / c.flowSpeed / (1 + c.timeWidth) * (rateFunc (1/1000) * 1000)

/-- The wind-down sequences built by the loop of lines 422-452: a line
with `time <= 0` yields the hold branch with hold run time
`-time / flow_speed`; any other line yields the finishing branch with
`remaining_time = max_run_time - time / flow_speed`. -/
def endAnimsOf (rateFunc : ℚ → ℚ) (c : SLContainer) : List EndAnim :=
  c.streamLines.map fun l =>
    if l.time ≤ 0 then
      .holdThenReveal (-l.time / c.flowSpeed) (creationRunTime rateFunc c)
    else
      .finishThenReveal (c.virtualTime / c.flowSpeed - l.time / c.flowSpeed)
        (creationRunTime rateFunc c)

/-- The container state after a successful `end_animation`: the updater is
unregistered (line 419) and the active-flow marker holds `None`
(line 420). -/
def endContainer (c : SLContainer) : SLContainer :=
  { c with updaterRegistered := false, flowAnimation := some none }

/-- `end_animation`, lines 359-453, restricted to the state the claims
read.  Reading `self.flow_animation` on a container where the attribute
was never created raises `AttributeError` (line 392 is the first access);
when it holds `None` the guard raises `ValueError` (line 393) before any
mutation; otherwise the updater is unregistered and the marker nulled
(lines 419-420) before the per-line wind-down sequences are built and
returned. -/
def end_animation (rateFunc : ℚ → ℚ) (c : SLContainer) :
    Except PyError (SLContainer × List EndAnim) :=
  match c.flowAnimation with
  | none => .error .attributeError
  | some none => .error .valueError
  | some (some _) => .ok (endContainer c, endAnimsOf rateFunc c)

/-! ## The claim C4 bounds, stated the way the claim words them -/

/-- The truncation predicate as claim C4 words it: lower bound
`expanded_min - padding` and upper bound `expanded_max + padding` per
axis, where `(expanded_min, expanded_max, step)` are the normalized range
triples.  (For comparison with `outside_box`, which also subtracts the
step from the upper side.) -/
def outsideBoxClaimed (xr yr zr : ℚ × ℚ × ℚ) (padding : ℚ) (p : Vec3) : Bool :=
  p.x < xr.1 - padding || p.x > xr.2.1 + padding ||
  p.y < yr.1 - padding || p.y > yr.2.1 + padding ||
  p.z < zr.1 - padding || p.z > zr.2.1 + padding

/-- The raw trajectory of the truncation scenario used to exercise C2 and
C3 below: the constant field `(1, 0, 0)` from the single seed at the
origin with `dt = 1` and `padding = 8` survives eight Euler steps (nine
stored points) before `x = 9` exits the padded box. -/
def ninePointsX : List Vec3 :=
  [⟨0, 0, 0⟩, ⟨1, 0, 0⟩, ⟨2, 0, 0⟩, ⟨3, 0, 0⟩, ⟨4, 0, 0⟩,
   ⟨5, 0, 0⟩, ⟨6, 0, 0⟩, ⟨7, 0, 0⟩, ⟨8, 0, 0⟩]

/-- A container with one stream line and a running flow, as
`start_animation` leaves it: used to exercise the success path of
`end_animation`. -/
def activeContainer : SLContainer :=
  { virtualTime := 3
    flowSpeed := 1
    timeWidth := 3/10
    streamLines := [{ duration := 21, time := 1 }]
    updaterRegistered := true
    flowAnimation := some (some ()) }

/-! ## Helper lemmas on downsampling, trajectories and build membership -/

/-- Element count picked by `everyNthAux`: multiplied by the stride it is
bounded by the remaining length plus `s - 1`. -/
theorem everyNthAux_length_le (s : ℕ) (hs : 1 ≤ s) :
    ∀ (l : List Vec3) (k : ℕ),
      s * (everyNthAux s l k).length ≤ l.length - k + (s - 1) := by
  intro l
  induction l with
  | nil => intro k; simp [everyNthAux]
  | cons a t ih =>
    intro k
    cases k with
    | zero =>
      have h1 := ih (s - 1)
      simp only [everyNthAux, List.length_cons]
      by_cases hc : (everyNthAux s t (s - 1)).length = 0
      · rw [hc]; omega
      · have hpos : 1 ≤ (everyNthAux s t (s - 1)).length := by omega
        have h2 : s * 1 ≤ s * (everyNthAux s t (s - 1)).length :=
          Nat.mul_le_mul_left s hpos
        have h3 : s * ((everyNthAux s t (s - 1)).length + 1)
            = s * (everyNthAux s t (s - 1)).length + s := by ring
        omega
    | succ k =>
      have h1 := ih k
      simp only [everyNthAux, List.length_cons]
      omega

/-- The slice `l[::s]` has at most `⌈len / s⌉` elements, stated
multiplicatively. -/
theorem everyNth_length_le (s : ℕ) (hs : 1 ≤ s) (l : List Vec3) :
    s * (everyNth s l).length ≤ l.length + (s - 1) := by
  have := everyNthAux_length_le s hs l 0
  simpa [everyNth] using this

/-- Arithmetic fact behind the downsampling bound: `m + q - 1 ≤ m * q` for
positive naturals. -/
theorem add_sub_one_le_mul {m q : ℕ} (hm : 1 ≤ m) (hq : 1 ≤ q) :
    m + q - 1 ≤ m * q := by
  obtain ⟨a, rfl⟩ := Nat.exists_eq_add_of_le hm
  obtain ⟨b, rfl⟩ := Nat.exists_eq_add_of_le hq
  have hexp : (1 + a) * (1 + b) = 1 + a + b + a * b := by ring
  omega

/-- The tight bound the downsampling of lines 205-206 actually satisfies:
with stride `max 1 (len / m)` the slice keeps at most `2 * m - 1`
elements. -/
theorem downsample_length_le (m : ℕ) (hm : 1 ≤ m) (l : List Vec3) :
    (everyNth (max 1 (l.length / m)) l).length ≤ 2 * m - 1 := by
  rcases lt_or_le l.length m with h | h
  · have h0 : l.length / m = 0 := Nat.div_eq_of_lt h
    have hs : max 1 (l.length / m) = 1 := by rw [h0]; simp
    rw [hs]
    have := everyNth_length_le 1 le_rfl l
    omega
  · have hq : 1 ≤ l.length / m := (Nat.one_le_div_iff (by omega)).mpr h
    have hs : max 1 (l.length / m) = l.length / m := max_eq_right hq
    rw [hs]
    have hlen := everyNth_length_le (l.length / m) hq l
    have hdm := Nat.div_add_mod l.length m
    have hmod := Nat.mod_lt l.length (show 0 < m by omega)
    by_contra hc
    have h2m : 2 * m ≤ (everyNth (l.length / m) l).length := by omega
    have hmul : l.length / m * (2 * m) ≤
        l.length / m * (everyNth (l.length / m) l).length :=
      Nat.mul_le_mul_left _ h2m
    have hnorm : l.length / m * (2 * m) = 2 * (m * (l.length / m)) := by ring
    have hms : m + l.length / m - 1 ≤ m * (l.length / m) :=
      add_sub_one_le_mul hm hq
    omega

/-- Every point of an integration run started inside the box stays inside:
each stored point passed the `outside_box` test before being appended. -/
theorem trajPoints_all_inside (func : Vec3 → Vec3) (ob : Vec3 → Bool) (dt : ℚ) :
    ∀ (n : ℕ) (p : Vec3), ob p = false →
      ∀ q ∈ trajPoints func ob dt n p, ob q = false := by
  intro n
  induction n with
  | zero => intro p hp q hq; simp [trajPoints] at hq; simpa [hq] using hp
  | succ n ih =>
    intro p hp q hq
    simp only [trajPoints] at hq
    by_cases hob : ob (euler func dt p) = true
    · rw [if_pos hob] at hq
      simp at hq; simpa [hq] using hp
    · rw [if_neg hob] at hq
      rcases List.mem_cons.mp hq with h | h
      · simpa [h] using hp
      · exact ih (euler func dt p) (by simpa using hob) q h

/-- Every stored trajectory point after the seed satisfies the truncation
predicate negatively: the point that caused the loop to break is never
stored. -/
theorem trajPoints_tail_inside (func : Vec3 → Vec3) (ob : Vec3 → Bool) (dt : ℚ)
    (n : ℕ) (seed : Vec3) :
    ∀ q ∈ (trajPoints func ob dt n seed).tail, ob q = false := by
  intro q hq
  cases n with
  | zero => simp [trajPoints] at hq
  | succ n =>
    simp only [trajPoints] at hq
    by_cases hob : ob (euler func dt seed) = true
    · rw [if_pos hob] at hq; simp at hq
    · rw [if_neg hob] at hq
      exact trajPoints_all_inside func ob dt n (euler func dt seed)
        (by simpa using hob) q (by simpa using hq)

/-- Shape of any line in the output of `build`: its duration is
`max_steps * dt` and its point list is a strided, projected slice of some
trajectory. -/
theorem mem_build_shape (_g : ℕ) (func proj : Vec3 → Vec3)
    (x_range y_range : RangeSpec) (z_range : Option RangeSpec) (threeD : Bool)
    (noise_factor : Option ℚ) (n_repeats : ℕ) (dt virtual_time : ℚ)
    (max_anchors : ℕ) (padding : ℚ) (line : StreamLine)
    (h : line ∈ build _g func proj x_range y_range z_range threeD noise_factor
      n_repeats dt virtual_time max_anchors padding) :
    ∃ pts : List Vec3,
      line.duration = (maxSteps virtual_time dt : ℚ) * dt ∧
      line.points = (everyNth (max 1 (pts.length / max_anchors)) pts).map proj := by
  simp only [build, List.mem_filterMap] at h
  obtain ⟨s, _, hsome⟩ := h
  refine ⟨trajPoints func
    (outside_box (assembleRanges x_range y_range z_range threeD).1
      (assembleRanges x_range y_range z_range threeD).2.1
      (assembleRanges x_range y_range z_range threeD).2.2 padding) dt
    (maxSteps virtual_time dt).toNat s, ?_, ?_⟩ <;>
  · unfold buildLine at hsome
    by_cases hz : maxSteps virtual_time dt = 0
    · rw [if_pos hz] at hsome; exact absurd hsome (by simp)
    · rw [if_neg hz] at hsome
      cases hsome
      simp

/-- Helper for the C5 invariant: folding per-frame updates whose
increments lie in `[0, virtual_time]` keeps a phase that starts in
`[0, virtual_time)` inside that interval. -/
theorem updaterRun_invariant_aux (vt fs : ℚ) :
    ∀ (pre : List ℚ) (phase : ℚ),
      (∀ d ∈ pre, 0 ≤ d * fs ∧ d * fs ≤ vt) → 0 ≤ phase → phase < vt →
      0 ≤ updaterRun vt fs phase pre ∧ updaterRun vt fs phase pre < vt := by
  intro pre
  induction pre with
  | nil => intro phase _ h0 h1; exact ⟨h0, h1⟩
  | cons d rest ih =>
    intro phase hd h0 h1
    have hdd := hd d (List.mem_cons_self d rest)
    have hstep : 0 ≤ updaterStep vt fs phase d ∧ updaterStep vt fs phase d < vt := by
      unfold updaterStep
      split_ifs with h
      · exact ⟨by linarith [hdd.2], by linarith [hdd.1]⟩
      · exact ⟨by linarith [hdd.1], by linarith⟩
    exact ih (updaterStep vt fs phase d)
      (fun e he => hd e (List.mem_cons_of_mem d he)) hstep.1 hstep.2

/-! ## Claim theorems -/

/-- Claim C1.  The claim says a seed whose trajectory has no survivable
integration steps contributes zero output lines.  The code does not do
this: the guard of line 201 tests `step = max_steps`, which is never zero
(here `max_steps = 2`), so the length-1 trajectory of a seed whose very
first Euler extension exits the padded box (field `(10, 0, 0)`, one seed
at the origin, `padding = 1`, `dt = 1`) is still emitted as a one-point
line with the full duration `2 * dt`. -/
theorem build_keeps_length_one_trajectory :
    build 0 (fun _ => ⟨10, 0, 0⟩) id (.pair 0 0) (.pair 0 0) none false (some 0)
        1 1 1 100 1 = [⟨2, [⟨0, 0, 0⟩]⟩] ∧
      (build 0 (fun _ => ⟨10, 0, 0⟩) id (.pair 0 0) (.pair 0 0) none false (some 0)
        1 1 1 100 1).length ≠ 0 := by
  with_unfolding_all decide

/-- Claim C2 counterexample.  The claim says `duration = step_count * dt`
with `step_count` the number of integration steps of the line's own
(possibly truncated) trajectory.  In this build the single trajectory is
truncated at the padded boundary after 8 steps (9 stored points,
`ninePointsX`), yet its duration is `21 = max_steps * dt`, not `8 * 1` or
`9 * 1`. -/
theorem duration_counterexample :
    build 0 (fun _ => ⟨1, 0, 0⟩) id (.pair 0 0) (.pair 0 0) none false (some 0)
        1 1 20 100 8 = [⟨21, ninePointsX⟩] ∧
      ((21 : ℚ) ≠ 9 * 1 ∧ (21 : ℚ) ≠ 8 * 1) := by
  with_unfolding_all decide

/-- Claim C2 amended: every stream line produced by `build` carries
`duration = max_steps * dt` with `max_steps = ceil(virtual_time / dt) + 1`,
independently of how early its trajectory was truncated (line 200 binds
`step = max_steps` before line 204 computes `duration = step * dt`). -/
theorem duration_is_max_steps_times_dt (_g : ℕ) (func proj : Vec3 → Vec3)
    (x_range y_range : RangeSpec) (z_range : Option RangeSpec) (threeD : Bool)
    (noise_factor : Option ℚ) (n_repeats : ℕ) (dt virtual_time : ℚ)
    (max_anchors : ℕ) (padding : ℚ) (line : StreamLine)
    (h : line ∈ build _g func proj x_range y_range z_range threeD noise_factor
      n_repeats dt virtual_time max_anchors padding) :
    line.duration = (maxSteps virtual_time dt : ℚ) * dt := by
  obtain ⟨pts, h1, _⟩ := mem_build_shape _g func proj x_range y_range z_range threeD
    noise_factor n_repeats dt virtual_time max_anchors padding line h
  exact h1

/-- Witness for the amended C2: the truncated line of
`duration_counterexample` has duration `maxSteps 20 1 * 1 = 21`. -/
theorem duration_is_max_steps_times_dt_witness :
    (StreamLine.mk 21 ninePointsX).duration = (maxSteps 20 1 : ℚ) * 1 :=
  duration_is_max_steps_times_dt 0 (fun _ => ⟨1, 0, 0⟩) id (.pair 0 0) (.pair 0 0)
    none false (some 0) 1 1 20 100 8 ⟨21, ninePointsX⟩ (by with_unfolding_all decide)

/-- Claim C3 counterexample.  The claim bounds every produced line by
`max_anchors_per_line + 1` points.  With `max_anchors_per_line = 5` and a
9-point trajectory the stride is `max(1, 9 / 5) = 1`, so the line keeps
all 9 points, exceeding `5 + 1`. -/
theorem anchor_bound_counterexample :
    (build 0 (fun _ => ⟨1, 0, 0⟩) id (.pair 0 0) (.pair 0 0) none false (some 0)
        1 1 20 5 8).map (fun l => l.points.length) = [9] ∧
      ¬ ((9 : ℕ) ≤ 5 + 1) := by
  with_unfolding_all decide

/-- Claim C3 amended: with stride `max(1, floor(len / max_anchors))` every
line produced by `build` has at most `2 * max_anchors - 1` points, for
every trajectory length and every `max_anchors ≥ 1` (and this bound is
attained by `anchor_bound_counterexample`). -/
theorem anchor_bound_downsample (_g : ℕ) (func proj : Vec3 → Vec3)
    (x_range y_range : RangeSpec) (z_range : Option RangeSpec) (threeD : Bool)
    (noise_factor : Option ℚ) (n_repeats : ℕ) (dt virtual_time : ℚ)
    (max_anchors : ℕ) (padding : ℚ) (hma : 1 ≤ max_anchors) (line : StreamLine)
    (h : line ∈ build _g func proj x_range y_range z_range threeD noise_factor
      n_repeats dt virtual_time max_anchors padding) :
    line.points.length ≤ 2 * max_anchors - 1 := by
  obtain ⟨pts, _, h2⟩ := mem_build_shape _g func proj x_range y_range z_range threeD
    noise_factor n_repeats dt virtual_time max_anchors padding line h
  rw [h2, List.length_map]
  exact downsample_length_le max_anchors hma pts

/-- Witness for the amended C3: the 9-point line of the counterexample
meets the bound `2 * 5 - 1 = 9`. -/
theorem anchor_bound_downsample_witness :
    (StreamLine.mk 21 ninePointsX).points.length ≤ 2 * 5 - 1 :=
  anchor_bound_downsample 0 (fun _ => ⟨1, 0, 0⟩) id (.pair 0 0) (.pair 0 0)
    none false (some 0) 1 1 20 5 8 (by norm_num) ⟨21, ninePointsX⟩
    (by with_unfolding_all decide)

/-- Claim C4 counterexample.  The claim states the per-axis upper bound of
the truncation box as "the expanded maximum plus padding".  For the raw
range `[0, 0.5, 0.5]` the expanded maximum is `1`, so the claim's box
admits `x = 3/4 ≤ 1 + 0`; `outside_box` however also subtracts the step
from the upper side (`range[1] + padding - range[2] = 1/2`) and already
rejects `x = 3/4`. -/
theorem outside_box_upper_bound_counterexample :
    outside_box (normalizeRange (.triple 0 (1/2) (1/2)))
        (normalizeRange (.triple 0 (1/2) (1/2)))
        (normalizeRange (.triple 0 (1/2) (1/2))) 0 ⟨3/4, 0, 0⟩ = true ∧
      outsideBoxClaimed (normalizeRange (.triple 0 (1/2) (1/2)))
        (normalizeRange (.triple 0 (1/2) (1/2)))
        (normalizeRange (.triple 0 (1/2) (1/2))) 0 ⟨3/4, 0, 0⟩ = false := by
  with_unfolding_all decide

/-- Claim C4 amended: `outside_box` compares against the already-expanded
stored bounds with the step subtracted back on the upper side, so for a
raw range `(lo, hi, st)` the surviving box on each axis is exactly
`[lo - padding, hi + padding]` — padding enters exactly once and the raw
upper bound is restored; moreover every trajectory point after the seed
lies inside this box (the point causing truncation is excluded from the
stored line, `trajPoints_tail_inside`). -/
theorem outside_box_padding_once
    (xlo xhi xst ylo yhi yst zlo zhi zst padding dt : ℚ)
    (func : Vec3 → Vec3) (n : ℕ) (seed : Vec3) :
    (∀ p : Vec3,
      outside_box (normalizeRange (.triple xlo xhi xst))
          (normalizeRange (.triple ylo yhi yst))
          (normalizeRange (.triple zlo zhi zst)) padding p = false ↔
        (xlo - padding ≤ p.x ∧ p.x ≤ xhi + padding ∧
         ylo - padding ≤ p.y ∧ p.y ≤ yhi + padding ∧
         zlo - padding ≤ p.z ∧ p.z ≤ zhi + padding)) ∧
    (∀ q ∈ (trajPoints func
        (outside_box (normalizeRange (.triple xlo xhi xst))
          (normalizeRange (.triple ylo yhi yst))
          (normalizeRange (.triple zlo zhi zst)) padding) dt n seed).tail,
      outside_box (normalizeRange (.triple xlo xhi xst))
        (normalizeRange (.triple ylo yhi yst))
        (normalizeRange (.triple zlo zhi zst)) padding q = false) := by
  constructor
  · intro p
    simp only [outside_box, normalizeRange, Bool.or_eq_false_iff,
      decide_eq_false_iff_not, not_lt, gt_iff_lt]
    constructor
    · rintro ⟨⟨⟨⟨⟨h1, h2⟩, h3⟩, h4⟩, h5⟩, h6⟩
      exact ⟨by linarith, by linarith, by linarith, by linarith, by linarith,
        by linarith⟩
    · rintro ⟨h1, h2, h3, h4, h5, h6⟩
      exact ⟨⟨⟨⟨⟨by linarith, by linarith⟩, by linarith⟩, by linarith⟩,
        by linarith⟩, by linarith⟩
  · exact trajPoints_tail_inside func _ dt n seed

/-- Witness for the amended C4: the origin lies inside the padded box of
the raw range `[0, 0.5, 0.5]` with `padding = 0`, through the bound
characterization. -/
theorem outside_box_padding_once_witness :
    outside_box (normalizeRange (.triple 0 (1/2) (1/2)))
      (normalizeRange (.triple 0 (1/2) (1/2)))
      (normalizeRange (.triple 0 (1/2) (1/2))) 0 ⟨0, 0, 0⟩ = false :=
  ((outside_box_padding_once 0 (1/2) (1/2) 0 (1/2) (1/2) 0 (1/2) (1/2) 0 1
      (fun _ => ⟨1, 0, 0⟩) 1 ⟨0, 0, 0⟩).1 ⟨0, 0, 0⟩).mpr
    (by norm_num)

/-- Claim C5: starting from a phase in `[0, virtual_time)`, any finite
sequence of per-frame updates (`phase += dt * flow_speed` then one
conditional wrap, lines 349-351) whose per-frame increments
`dt * flow_speed` lie in `[0, virtual_time]` keeps the phase in
`[0, virtual_time)` after every update (every prefix of the frame
sequence); and a still-negative warm-up phase never reaches
`virtual_time` in one update, so once it turns non-negative the invariant
takes over. -/
theorem updater_phase_invariant (virtualTime flowSpeed : ℚ) (dts : List ℚ)
    (hd : ∀ d ∈ dts, 0 ≤ d * flowSpeed ∧ d * flowSpeed ≤ virtualTime)
    (phase : ℚ) (h0 : 0 ≤ phase) (h1 : phase < virtualTime)
    (pre suf : List ℚ) (hsplit : dts = pre ++ suf)
    (q d : ℚ) (hq : q < 0) (hdq : d * flowSpeed ≤ virtualTime) :
    (0 ≤ updaterRun virtualTime flowSpeed phase pre ∧
      updaterRun virtualTime flowSpeed phase pre < virtualTime) ∧
    updaterStep virtualTime flowSpeed q d < virtualTime := by
  constructor
  · refine updaterRun_invariant_aux virtualTime flowSpeed pre phase ?_ h0 h1
    intro e he
    exact hd e (by rw [hsplit]; exact List.mem_append_left suf he)
  · unfold updaterStep
    split_ifs with h
    · linarith
    · linarith

/-- Witness for C5: phase `0`, four unit frames with
`virtual_time = 3, flow_speed = 1`; after the two-frame prefix the phase
`2` is still in `[0, 3)`, and the warm-up phase `-2` stays below `3`. -/
theorem updater_phase_invariant_witness :
    ((0 : ℚ) ≤ updaterRun 3 1 0 [1, 1] ∧ updaterRun 3 1 0 [1, 1] < 3) ∧
      updaterStep 3 1 (-2) 1 < 3 :=
  updater_phase_invariant 3 1 [1, 1, 1, 1]
    (by intro d hd; fin_cases hd <;> norm_num) 0 le_rfl (by norm_num)
    [1, 1] [1, 1] rfl (-2) 1 (by norm_num) (by norm_num)

/-- Claim C6: `end_animation` fails with the no-active-flow error (the
`ValueError` of line 393, the spec's InvalidStateError) when the
active-flow marker holds `None`; otherwise it succeeds, unregistering the
per-frame callback and nulling the marker (lines 419-420) while leaving
the stream lines untouched, and a second `end_animation` on the resulting
state fails cleanly with that same error — producing no new state. -/
theorem end_animation_state_machine (rateFunc : ℚ → ℚ) (c : SLContainer) :
    (c.flowAnimation = some none → end_animation rateFunc c = .error .valueError) ∧
    (∀ u : Unit, c.flowAnimation = some (some u) →
      end_animation rateFunc c = .ok (endContainer c, endAnimsOf rateFunc c) ∧
      (endContainer c).updaterRegistered = false ∧
      (endContainer c).flowAnimation = some none ∧
      (endContainer c).streamLines = c.streamLines ∧
      end_animation rateFunc (endContainer c) = .error .valueError) := by
  constructor
  · intro h; simp [end_animation, h]
  · intro u h
    exact ⟨by simp [end_animation, h], rfl, rfl, rfl,
      by simp [end_animation, endContainer]⟩

/-- Witness for C6 on `activeContainer`: a successful end followed by a
failing second end. -/
theorem end_animation_state_machine_witness :
    end_animation (fun t => t) activeContainer =
        .ok (endContainer activeContainer, endAnimsOf (fun t => t) activeContainer) ∧
      (endContainer activeContainer).updaterRegistered = false ∧
      (endContainer activeContainer).flowAnimation = some none ∧
      (endContainer activeContainer).streamLines = activeContainer.streamLines ∧
      end_animation (fun t => t) (endContainer activeContainer) = .error .valueError :=
  (end_animation_state_machine (fun t => t) activeContainer).2 () rfl

/-- Claim C7: when `end_animation` runs immediately after
`start_animation` with warm-up enabled (no per-frame update in between),
it succeeds and every wind-down sequence it returns is of the
hold-invisible-then-reveal kind, because every line's phase was assigned
`-(random() * virtual_time) ≤ 0` (lines 342-344) and line 428 selects the
hold branch exactly for `time <= 0`. -/
theorem end_after_warmup_start_all_hold (rateFunc : ℚ → ℚ) (c : SLContainer)
    (flowSpeed timeWidth : ℚ) (rand : ℕ → ℚ)
    (hvt : 0 ≤ c.virtualTime) (hr : ∀ k, 0 ≤ rand k) :
    end_animation rateFunc (start_animation c true flowSpeed timeWidth rand) =
      .ok (endContainer (start_animation c true flowSpeed timeWidth rand),
        endAnimsOf rateFunc (start_animation c true flowSpeed timeWidth rand)) ∧
    ∀ a ∈ endAnimsOf rateFunc (start_animation c true flowSpeed timeWidth rand),
      a.isHold = true := by
  constructor
  · rfl
  · intro a ha
    simp only [endAnimsOf, List.mem_map] at ha
    obtain ⟨l, hl, rfl⟩ := ha
    simp only [start_animation, List.mem_map, if_true] at hl
    obtain ⟨kl, hkl, rfl⟩ := hl
    have hneg : -(rand kl.1 * c.virtualTime) ≤ 0 := by
      have := mul_nonneg (hr kl.1) hvt
      linarith
    simp only [if_pos hneg, EndAnim.isHold]

/-- Witness for C7 on a one-line container with `virtual_time = 3` and the
constant random stream `1/2`. -/
theorem end_after_warmup_start_all_hold_witness :
    end_animation (fun t => t)
        (start_animation (mkContainer 3 [⟨21, []⟩]) true 1 (3/10) (fun _ => 1/2)) =
      .ok (endContainer (start_animation (mkContainer 3 [⟨21, []⟩]) true 1 (3/10)
          (fun _ => 1/2)),
        endAnimsOf (fun t => t)
          (start_animation (mkContainer 3 [⟨21, []⟩]) true 1 (3/10) (fun _ => 1/2))) :=
  (end_after_warmup_start_all_hold (fun t => t) (mkContainer 3 [⟨21, []⟩]) 1 (3/10)
    (fun _ => 1/2) (by norm_num [mkContainer]) (fun k => by norm_num)).1

/-- Claim C8: range normalization turns a 3-element range `(lo, hi, st)`
into `(lo, hi + st, st)`, gives a 2-element range the default step `1/2`
before that expansion, and in 2D mode with no z-range supplied produces
the degenerate normalized z axis `(0, 1/2, 1/2)` (the `[0, 0]` of
line 130 after normalization) instead of omitting the axis. -/
theorem range_normalization_spec (lo hi st : ℚ) (x_range y_range : RangeSpec) :
    normalizeRange (.triple lo hi st) = (lo, hi + st, st) ∧
    normalizeRange (.pair lo hi) = (lo, hi + 1/2, 1/2) ∧
    (assembleRanges x_range y_range none false).2.2 = (0, 1/2, 1/2) := by
  refine ⟨rfl, rfl, ?_⟩
  simp [assembleRanges, normalizeRange]

/-- Claim C9: `build` is deterministic — it discards the incoming global
generator state (`np.random.seed(0)` on line 159 reseeds it with the fixed
value `0` at the start of every build) and everything else is a pure
function of the arguments, so two runs with the same field, ranges and
parameters return the same list of stream lines, with identical seed
positions and trajectories. -/
theorem build_reseeds_rng_deterministic (g₁ g₂ : ℕ) (func proj : Vec3 → Vec3)
    (x_range y_range : RangeSpec) (z_range : Option RangeSpec) (threeD : Bool)
    (noise_factor : Option ℚ) (n_repeats : ℕ) (dt virtual_time : ℚ)
    (max_anchors : ℕ) (padding : ℚ) :
    build g₁ func proj x_range y_range z_range threeD noise_factor n_repeats dt
        virtual_time max_anchors padding =
      build g₂ func proj x_range y_range z_range threeD noise_factor n_repeats dt
        virtual_time max_anchors padding := rfl

/-- Claim C10: calling `end_animation` on a container on which
`start_animation` never ran fails with an attribute-access error — the
attribute `flow_animation` read at line 392 is only created inside
`start_animation` (line 355) — which is a different error from the
documented no-active-flow `ValueError`; the latter becomes reachable
after one start/end cycle, which leaves the marker holding `None`. -/
theorem end_before_start_attribute_error (rateFunc : ℚ → ℚ)
    (vt flowSpeed timeWidth : ℚ) (lines : List StreamLine) (warmUp : Bool)
    (rand : ℕ → ℚ) :
    end_animation rateFunc (mkContainer vt lines) = .error .attributeError ∧
    PyError.attributeError ≠ PyError.valueError ∧
    end_animation rateFunc
        (endContainer (start_animation (mkContainer vt lines) warmUp flowSpeed
          timeWidth rand)) = .error .valueError := by
  exact ⟨rfl, by decide, rfl⟩

/-- Witness for C10: a fresh two-line-free container fails with the
attribute error, and after one start/end cycle the documented error
appears. -/
theorem end_before_start_attribute_error_witness :
    end_animation (fun t => t) (mkContainer 3 []) = .error .attributeError ∧
      end_animation (fun t => t)
        (endContainer (start_animation (mkContainer 3 []) true 1 (3/10)
          (fun _ => 1/2))) = .error .valueError :=
  ⟨(end_before_start_attribute_error (fun t => t) 3 1 (3/10) [] true (fun _ => 1/2)).1,
    (end_before_start_attribute_error (fun t => t) 3 1 (3/10) [] true (fun _ => 1/2)).2.2⟩
